import Mathlib

/-!
Verification of the littlefs storage-backend layer (`src/littlefs/context.py`).

The layer exposes four primitive operations (`read`, `prog`, `erase`, `sync`)
over three backends: an in-memory byte buffer (`UserContext`), a Windows
raw-disk backend (`UserContextWinDisk`) and a Linux raw-disk backend
(`UserContextLinuxDisk`).  Bytes are modelled as `Nat` (values 0..255),
byte strings as `List Nat`.  The in-memory backend is a Python `bytearray`,
so its `read`/`prog`/`erase` use Python slice read and slice assignment
semantics, which are embedded faithfully below (including index clamping,
which lets an out-of-range slice assignment append at the end of the
buffer).  The raw-disk backends are embedded as explicit state passing over
a `Disk` (device contents plus a file cursor), with the POSIX / Win32
positioned-I/O primitives (`os.lseek`/`os.read`/`os.write`/`os.fsync`,
`SetFilePointer`/`ReadFile`/`WriteFile`/`FlushFileBuffers`) given their
documented semantics.
-/

/-- Filesystem configuration object as seen by this layer: the engine
supplies `block_size` (bytes per erasable block) and `block_count`
(total number of blocks). -/
structure LFSConfig where
  block_size : Nat
  block_count : Nat
deriving DecidableEq

/-- Python slice read `b[start:stop]` for non-negative `start`, `stop`:
indices are clamped to the list length and an empty list is returned when
`stop ≤ start`. -/
def pySliceGet (b : List Nat) (start stop : Nat) : List Nat :=
  (b.drop start).take (stop - start)

/-- Python slice assignment `b[start:stop] = data` for non-negative
`start`, `stop`: both indices are clamped to `b.length` (and `stop` is
raised to `start` when smaller), then the selected range is replaced by
`data`, which may change the length of the list.  In particular when
`start > b.length` the assignment appends `data` at the end. -/
def pySliceSet (b : List Nat) (start stop : Nat) (data : List Nat) : List Nat :=
  let s := min start b.length
  let e := min (max stop s) b.length
  b.take s ++ (data ++ b.drop e)

/-- In-memory backend state: `self.buffer`, a `bytearray`. -/
structure UserContext where
  buffer : List Nat
deriving DecidableEq

/-- `UserContext.__init__(buffsize)`: `self.buffer = bytearray([0xFF] * buffsize)`. -/
def UserContext.init (buffsize : Nat) : UserContext :=
  ⟨List.replicate buffsize 0xFF⟩

/-- `UserContext.read(cfg, block, off, size)`: returns
`self.buffer[start:end]` with `start = block * cfg.block_size + off` and
`end = start + size`. -/
def UserContext.read (self : UserContext) (cfg : LFSConfig)
    (block off size : Nat) : List Nat :=
  pySliceGet self.buffer (block * cfg.block_size + off)
    (block * cfg.block_size + off + size)

/-- `UserContext.prog(cfg, block, off, data)`: performs
`self.buffer[start:end] = data` with `start = block * cfg.block_size + off`
and `end = start + len(data)`, then returns `0`.  The pair is
(returned status, updated backend state). -/
def UserContext.prog (self : UserContext) (cfg : LFSConfig)
    (block off : Nat) (data : List Nat) : Nat × UserContext :=
  (0, ⟨pySliceSet self.buffer (block * cfg.block_size + off)
        (block * cfg.block_size + off + data.length) data⟩)

/-- `UserContext.erase(cfg, block)`: performs
`self.buffer[start:end] = [0xFF] * cfg.block_size` with
`start = block * cfg.block_size` and `end = start + cfg.block_size`,
then returns `0`. -/
def UserContext.erase (self : UserContext) (cfg : LFSConfig)
    (block : Nat) : Nat × UserContext :=
  (0, ⟨pySliceSet self.buffer (block * cfg.block_size)
        (block * cfg.block_size + cfg.block_size)
        (List.replicate cfg.block_size 0xFF)⟩)

/-- `UserContext.sync(cfg)`: returns `0` and touches no state. -/
def UserContext.sync (self : UserContext) (cfg : LFSConfig) : Nat × UserContext :=
  (0, self)

/-- State of an opened raw device: its byte contents and the current file
cursor position of the open handle. -/
structure Disk where
  data : List Nat
  pos : Nat
deriving DecidableEq

/-- `os.lseek(fd, off, os.SEEK_SET)`: sets the cursor to the absolute
offset `off`.  `win32file.SetFilePointer(h, off, FILE_BEGIN)` has the same
semantics. -/
def osLseek (d : Disk) (off : Nat) : Disk :=
  { d with pos := off }

/-- `os.read(fd, size)`: reads up to `size` bytes starting at the cursor
(fewer when the device ends earlier) and advances the cursor by the number
of bytes actually read.  `win32file.ReadFile(h, buf)` transfers bytes the
same way into the caller's buffer. -/
def osRead (d : Disk) (size : Nat) : List Nat × Disk :=
  let r := (d.data.drop d.pos).take size
  (r, { d with pos := d.pos + r.length })

/-- `os.write(fd, bs)`: writes `bs` at the cursor, extending the device
with zero bytes first when the cursor lies beyond the end, and advances
the cursor.  `win32file.WriteFile(h, bs)` has the same semantics. -/
def osWrite (d : Disk) (bs : List Nat) : Disk :=
  let padded := d.data ++ List.replicate (d.pos - d.data.length) 0
  { data := padded.take d.pos ++ (bs ++ padded.drop (d.pos + bs.length)),
    pos := d.pos + bs.length }

/-- `UserContextLinuxDisk.read(cfg, block, off, size)`:
`os.lseek(fd, start, SEEK_SET)` with `start = block * cfg.block_size + off`
followed by `data = os.read(fd, size)`; returns `data`. -/
def UserContextLinuxDisk.read (cfg : LFSConfig) (block off size : Nat)
    (d : Disk) : List Nat × Disk :=
  osRead (osLseek d (block * cfg.block_size + off)) size

/-- `UserContextLinuxDisk.prog(cfg, block, off, data)`: seek to
`block * cfg.block_size + off`, `os.write(fd, data)`, return `0`. -/
def UserContextLinuxDisk.prog (cfg : LFSConfig) (block off : Nat)
    (data : List Nat) (d : Disk) : Nat × Disk :=
  (0, osWrite (osLseek d (block * cfg.block_size + off)) data)

/-- `UserContextLinuxDisk.erase(cfg, block)`: seek to
`block * cfg.block_size`, `os.write(fd, bytes([0xFF] * cfg.block_size))`,
return `0`. -/
def UserContextLinuxDisk.erase (cfg : LFSConfig) (block : Nat)
    (d : Disk) : Nat × Disk :=
  (0, osWrite (osLseek d (block * cfg.block_size))
        (List.replicate cfg.block_size 0xFF))

/-- `UserContextLinuxDisk.sync(cfg)`: `os.fsync(fd)` (flushes the device
write-back cache; no observable change to contents or cursor), return `0`. -/
def UserContextLinuxDisk.sync (cfg : LFSConfig) (d : Disk) : Nat × Disk :=
  (0, d)

/-- `UserContextWinDisk.read(cfg, block, off, size)`: seek to
`block * cfg.block_size + off`, allocate `buffer =
ctypes.create_string_buffer(size)` (zero-initialised, `size` bytes),
`win32file.ReadFile(device, buffer)`, return `buffer.raw`.  `buffer.raw`
always has length `size`: the bytes transferred by `ReadFile` followed by
the untouched zero initialisation. -/
def UserContextWinDisk.read (cfg : LFSConfig) (block off size : Nat)
    (d : Disk) : List Nat × Disk :=
  let r := osRead (osLseek d (block * cfg.block_size + off)) size
  (r.1 ++ List.replicate (size - r.1.length) 0, r.2)

/-- `UserContextWinDisk.prog(cfg, block, off, data)`: seek to
`block * cfg.block_size + off`, `win32file.WriteFile(device, data)`,
return `0`. -/
def UserContextWinDisk.prog (cfg : LFSConfig) (block off : Nat)
    (data : List Nat) (d : Disk) : Nat × Disk :=
  (0, osWrite (osLseek d (block * cfg.block_size + off)) data)

/-- `UserContextWinDisk.erase(cfg, block)`: seek to
`block * cfg.block_size`, write `bytes([0xFF] * cfg.block_size)`,
return `0`. -/
def UserContextWinDisk.erase (cfg : LFSConfig) (block : Nat)
    (d : Disk) : Nat × Disk :=
  (0, osWrite (osLseek d (block * cfg.block_size))
        (List.replicate cfg.block_size 0xFF))

/-- `UserContextWinDisk.sync(cfg)`: `win32file.FlushFileBuffers(device)`,
return `0`. -/
def UserContextWinDisk.sync (cfg : LFSConfig) (d : Disk) : Nat × Disk :=
  (0, d)

/-- Python exceptions this layer can raise or propagate. -/
inductive PyError
  | importError
  | osError
  | ioError
deriving DecidableEq

/-- `UserContextLinuxDisk.read` with the medium-level `os.read` call's
possible failure made explicit: a raised `OSError` propagates out of
`read` (the method has no handler), otherwise the method runs as the pure
embedding. -/
def UserContextLinuxDisk.readE (readFails : Bool) (cfg : LFSConfig)
    (block off size : Nat) (d : Disk) : Except PyError (List Nat × Disk) :=
  if readFails then Except.error PyError.osError
  else Except.ok (UserContextLinuxDisk.read cfg block off size d)

/-- `UserContextLinuxDisk.prog` with the medium-level `os.write` call's
possible failure made explicit: a raised `OSError` propagates out of
`prog` before the `return 0` is reached. -/
def UserContextLinuxDisk.progE (writeFails : Bool) (cfg : LFSConfig)
    (block off : Nat) (data : List Nat) (d : Disk) :
    Except PyError (Nat × Disk) :=
  if writeFails then Except.error PyError.osError
  else Except.ok (UserContextLinuxDisk.prog cfg block off data d)

/-- `UserContextLinuxDisk.erase` with the medium-level `os.write` call's
possible failure made explicit. -/
def UserContextLinuxDisk.eraseE (writeFails : Bool) (cfg : LFSConfig)
    (block : Nat) (d : Disk) : Except PyError (Nat × Disk) :=
  if writeFails then Except.error PyError.osError
  else Except.ok (UserContextLinuxDisk.erase cfg block d)

/-- `UserContextLinuxDisk.sync` with the medium-level `os.fsync` call's
possible failure made explicit. -/
def UserContextLinuxDisk.syncE (fsyncFails : Bool) (cfg : LFSConfig)
    (d : Disk) : Except PyError (Nat × Disk) :=
  if fsyncFails then Except.error PyError.osError
  else Except.ok (UserContextLinuxDisk.sync cfg d)

/-- `UserContextWinDisk.read` with the medium-level `ReadFile` call's
possible failure made explicit. -/
def UserContextWinDisk.readE (readFails : Bool) (cfg : LFSConfig)
    (block off size : Nat) (d : Disk) : Except PyError (List Nat × Disk) :=
  if readFails then Except.error PyError.osError
  else Except.ok (UserContextWinDisk.read cfg block off size d)

/-- `UserContextWinDisk.prog` with the medium-level `WriteFile` call's
possible failure made explicit. -/
def UserContextWinDisk.progE (writeFails : Bool) (cfg : LFSConfig)
    (block off : Nat) (data : List Nat) (d : Disk) :
    Except PyError (Nat × Disk) :=
  if writeFails then Except.error PyError.osError
  else Except.ok (UserContextWinDisk.prog cfg block off data d)

/-- `UserContextWinDisk.erase` with the medium-level `WriteFile` call's
possible failure made explicit. -/
def UserContextWinDisk.eraseE (writeFails : Bool) (cfg : LFSConfig)
    (block : Nat) (d : Disk) : Except PyError (Nat × Disk) :=
  if writeFails then Except.error PyError.osError
  else Except.ok (UserContextWinDisk.erase cfg block d)

/-- `UserContextWinDisk.sync` with the medium-level `FlushFileBuffers`
call's possible failure made explicit. -/
def UserContextWinDisk.syncE (flushFails : Bool) (cfg : LFSConfig)
    (d : Disk) : Except PyError (Nat × Disk) :=
  if flushFails then Except.error PyError.osError
  else Except.ok (UserContextWinDisk.sync cfg d)

/-- Observable device-handle / raw-I/O events a backend instance emits
while it runs. -/
inductive DiskEvent
  | openEv
  | closeEv
  | seekEv
  | readEv
  | writeEv
  | flushEv
deriving DecidableEq

/-- Outcome of running a raw-disk backend constructor: the exception it
raised (if any), the final value of the `self.device` field, and the
handle events it emitted. -/
structure InitResult where
  err : Option PyError
  device : Option Int
  events : List DiskEvent
deriving DecidableEq

/-- Windows sentinel returned by a failed `CreateFile` in the Win32 C API;
the constructor compares `self.device` against it. -/
def INVALID_HANDLE_VALUE : Int := -1

/-- `UserContextWinDisk.__init__(disk_path)`: sets `self.device = None`;
raises `ImportError` when the `win32file` module is unavailable (before
any open attempt); otherwise calls `win32file.CreateFile` (the one open
attempt, outcome `openOutcome`: the handle it returns, or the exception it
raises, in which case `self.device` keeps `None`); finally raises
`IOError` if the returned handle equals `INVALID_HANDLE_VALUE` (with
`self.device` left holding that sentinel). -/
def UserContextWinDisk.init (win32Avail : Bool)
    (openOutcome : Except PyError Int) : InitResult :=
  if win32Avail then
    match openOutcome with
    | Except.error e =>
        { err := some e, device := none, events := [DiskEvent.openEv] }
    | Except.ok h =>
        if h = INVALID_HANDLE_VALUE then
          { err := some PyError.ioError, device := some h,
            events := [DiskEvent.openEv] }
        else
          { err := none, device := some h, events := [DiskEvent.openEv] }
  else
    { err := some PyError.importError, device := none, events := [] }

/-- `UserContextLinuxDisk.__init__(disk_path)`: sets `self.device = None`;
raises `ImportError` when `fcntl` is unavailable, then when `os` is
unavailable (both before any open attempt); otherwise calls
`os.open(disk_path, os.O_RDWR)` (the one open attempt, outcome
`openOutcome`: the integer descriptor it returns, or the exception it
raises, in which case `self.device` keeps `None`).  The subsequent
`if self.device == None: raise IOError` check never fires on a returned
descriptor, since `os.open` returns an `int`, never `None`. -/
def UserContextLinuxDisk.init (fcntlAvail osAvail : Bool)
    (openOutcome : Except PyError Int) : InitResult :=
  if fcntlAvail then
    if osAvail then
      match openOutcome with
      | Except.error e =>
          { err := some e, device := none, events := [DiskEvent.openEv] }
      | Except.ok fd =>
          { err := none, device := some fd, events := [DiskEvent.openEv] }
    else
      { err := some PyError.importError, device := none, events := [] }
  else
    { err := some PyError.importError, device := none, events := [] }

/-- `UserContextWinDisk.__del__`: calls `win32file.CloseHandle(self.device)`
exactly when `self.device != None`.  Returns the handle events emitted. -/
def UserContextWinDisk.del (device : Option Int) : List DiskEvent :=
  match device with
  | none => []
  | some _ => [DiskEvent.closeEv]

/-- `UserContextLinuxDisk.__del__`: calls `os.close(self.device)` exactly
when `self.device != None`.  Returns the handle events emitted. -/
def UserContextLinuxDisk.del (device : Option Int) : List DiskEvent :=
  match device with
  | none => []
  | some _ => [DiskEvent.closeEv]

/-- One call into a raw-disk backend, with its arguments. -/
inductive DiskOp
  | readOp (block off size : Nat)
  | progOp (block off : Nat) (data : List Nat)
  | eraseOp (block : Nat)
  | syncOp

/-- Handle / raw-I/O events a `UserContextLinuxDisk` operation emits when
issued (whether or not its medium-level call fails): each method only
seeks, transfers bytes or flushes; none opens or closes the handle. -/
def UserContextLinuxDisk.opEvents : DiskOp → List DiskEvent
  | DiskOp.readOp _ _ _ => [DiskEvent.seekEv, DiskEvent.readEv]
  | DiskOp.progOp _ _ _ => [DiskEvent.seekEv, DiskEvent.writeEv]
  | DiskOp.eraseOp _ => [DiskEvent.seekEv, DiskEvent.writeEv]
  | DiskOp.syncOp => [DiskEvent.flushEv]

/-- Handle / raw-I/O events a `UserContextWinDisk` operation emits when
issued: `SetFilePointer` then `ReadFile`/`WriteFile`, or
`FlushFileBuffers`; none opens or closes the handle. -/
def UserContextWinDisk.opEvents : DiskOp → List DiskEvent
  | DiskOp.readOp _ _ _ => [DiskEvent.seekEv, DiskEvent.readEv]
  | DiskOp.progOp _ _ _ => [DiskEvent.seekEv, DiskEvent.writeEv]
  | DiskOp.eraseOp _ => [DiskEvent.seekEv, DiskEvent.writeEv]
  | DiskOp.syncOp => [DiskEvent.flushEv]

/-- Full event trace of one `UserContextLinuxDisk` instance: construction,
then any sequence of issued operations, then destruction (which inspects
the `self.device` field left by construction). -/
def UserContextLinuxDisk.lifecycleEvents (fcntlAvail osAvail : Bool)
    (openOutcome : Except PyError Int) (ops : List DiskOp) : List DiskEvent :=
  let r := UserContextLinuxDisk.init fcntlAvail osAvail openOutcome
  r.events ++ ((ops.map UserContextLinuxDisk.opEvents).flatten
    ++ UserContextLinuxDisk.del r.device)

/-- Full event trace of one `UserContextWinDisk` instance: construction,
then any sequence of issued operations, then destruction. -/
def UserContextWinDisk.lifecycleEvents (win32Avail : Bool)
    (openOutcome : Except PyError Int) (ops : List DiskOp) : List DiskEvent :=
  let r := UserContextWinDisk.init win32Avail openOutcome
  r.events ++ ((ops.map UserContextWinDisk.opEvents).flatten
    ++ UserContextWinDisk.del r.device)

/-- Number of handle-open events in a trace. -/
def countOpens : List DiskEvent → Nat
  | [] => 0
  | DiskEvent.openEv :: es => countOpens es + 1
  | _ :: es => countOpens es

/-- Number of handle-close (release) events in a trace. -/
def countCloses : List DiskEvent → Nat
  | [] => 0
  | DiskEvent.closeEv :: es => countCloses es + 1
  | _ :: es => countCloses es

/-- Contract of the real platform open calls: `os.open` and
`win32file.CreateFile` raise an exception when the open fails, so a value
they return is a genuine handle and never the `INVALID_HANDLE_VALUE`
sentinel the constructor's dead check compares against. -/
def okHandleValid (oo : Except PyError Int) : Bool :=
  match oo with
  | Except.ok h => h != INVALID_HANDLE_VALUE
  | Except.error _ => true

/-- Concrete configuration used to instantiate the theorems: 4-byte
blocks, 3 blocks. -/
def cfg0 : LFSConfig := ⟨4, 3⟩

/-- Concrete freshly-erased in-memory buffer matching `cfg0`
(`4 * 3 = 12` bytes of `0xFF`). -/
def buf0 : List Nat := List.replicate 12 0xFF

/-- Concrete raw-disk state matching `cfg0`: a 12-byte erased device,
cursor at 0. -/
def disk0 : Disk := ⟨List.replicate 12 0xFF, 0⟩

/-!
## Helper lemmas

Shared facts about Python slice semantics, the positioned-I/O primitives
and the address arithmetic.  They are used by several claim theorems.
-/

/-- In-range addresses stay inside a medium of `block_size * block_count`
bytes. -/
theorem mul_block_bound (cfg : LFSConfig) (block off size : Nat)
    (hb : block < cfg.block_count) (ho : off + size ≤ cfg.block_size) :
    block * cfg.block_size + off + size ≤ cfg.block_size * cfg.block_count := by
  have h2 : (block + 1) * cfg.block_size ≤ cfg.block_count * cfg.block_size :=
    mul_le_mul_right' (by omega) cfg.block_size
  have h1 : block * cfg.block_size + cfg.block_size = (block + 1) * cfg.block_size := by
    ring
  have h3 : cfg.block_count * cfg.block_size = cfg.block_size * cfg.block_count :=
    Nat.mul_comm _ _
  omega

/-- An in-bounds Python slice assignment replaces exactly the selected
range. -/
theorem pySliceSet_inBounds (b data : List Nat) (start stop : Nat)
    (h1 : start ≤ stop) (h2 : stop ≤ b.length) :
    pySliceSet b start stop data = b.take start ++ (data ++ b.drop stop) := by
  simp only [pySliceSet]
  have hs : min start b.length = start := by omega
  have he : min (max stop start) b.length = stop := by omega
  rw [hs, he]

/-- Reading back the middle part of a sandwiched list returns it
unchanged. -/
theorem sandwichRead (p data rest : List Nat) (start n : Nat)
    (hp : p.length = start) (hn : data.length = n) :
    ((p ++ (data ++ rest)).drop start).take n = data := by
  rw [List.drop_left' hp, List.take_left' hn]

/-- An in-bounds `os.write` replaces exactly the range starting at the
cursor. -/
theorem osWrite_data (d : Disk) (bs : List Nat)
    (h : d.pos + bs.length ≤ d.data.length) :
    (osWrite d bs).data
      = d.data.take d.pos ++ (bs ++ d.data.drop (d.pos + bs.length)) := by
  unfold osWrite
  have h0 : d.pos - d.data.length = 0 := by omega
  simp [h0]

/-- The bytes an `os.write` deposited at the cursor position read back
unchanged, for any cursor position (the device is zero-extended when the
cursor lies beyond its end). -/
theorem osWrite_readback (d : Disk) (bs : List Nat) :
    (((osWrite d bs).data).drop d.pos).take bs.length = bs := by
  unfold osWrite
  refine sandwichRead _ _ _ _ _ ?_ rfl
  simp [List.length_take, List.length_append, List.length_replicate]
  omega

/-- `countOpens` distributes over trace concatenation. -/
theorem countOpens_append (a b : List DiskEvent) :
    countOpens (a ++ b) = countOpens a + countOpens b := by
  induction a with
  | nil => simp [countOpens]
  | cons e es ih => cases e <;> simp [countOpens, ih] <;> omega

/-- `countCloses` distributes over trace concatenation. -/
theorem countCloses_append (a b : List DiskEvent) :
    countCloses (a ++ b) = countCloses a + countCloses b := by
  induction a with
  | nil => simp [countCloses]
  | cons e es ih => cases e <;> simp [countCloses, ih] <;> omega

/-- Issued Linux-backend operations never open a handle. -/
theorem countOpens_linOps (ops : List DiskOp) :
    countOpens ((ops.map UserContextLinuxDisk.opEvents).flatten) = 0 := by
  induction ops with
  | nil => rfl
  | cons op ops ih =>
      cases op <;>
        simp [UserContextLinuxDisk.opEvents, countOpens_append, countOpens, ih]

/-- Issued Linux-backend operations never close a handle. -/
theorem countCloses_linOps (ops : List DiskOp) :
    countCloses ((ops.map UserContextLinuxDisk.opEvents).flatten) = 0 := by
  induction ops with
  | nil => rfl
  | cons op ops ih =>
      cases op <;>
        simp [UserContextLinuxDisk.opEvents, countCloses_append, countCloses, ih]

/-- Issued Windows-backend operations never open a handle. -/
theorem countOpens_winOps (ops : List DiskOp) :
    countOpens ((ops.map UserContextWinDisk.opEvents).flatten) = 0 := by
  induction ops with
  | nil => rfl
  | cons op ops ih =>
      cases op <;>
        simp [UserContextWinDisk.opEvents, countOpens_append, countOpens, ih]

/-- Issued Windows-backend operations never close a handle. -/
theorem countCloses_winOps (ops : List DiskOp) :
    countCloses ((ops.map UserContextWinDisk.opEvents).flatten) = 0 := by
  induction ops with
  | nil => rfl
  | cons op ops ih =>
      cases op <;>
        simp [UserContextWinDisk.opEvents, countCloses_append, countCloses, ih]

/-- In-memory read-after-write at matching parameters. -/
theorem userContext_prog_read (cfg : LFSConfig) (block off : Nat)
    (data buf : List Nat)
    (h : block * cfg.block_size + off + data.length ≤ buf.length) :
    ((UserContext.mk buf).prog cfg block off data).2.read cfg block off
      data.length = data := by
  unfold UserContext.prog UserContext.read pySliceGet
  rw [pySliceSet_inBounds _ _ _ _ (by omega) h, Nat.add_sub_cancel_left]
  exact sandwichRead _ _ _ _ _ (by simp [List.length_take]; omega) rfl

/-- Linux-disk read-after-write at matching parameters, for any device
contents. -/
theorem linuxDisk_prog_read (cfg : LFSConfig) (block off : Nat)
    (data : List Nat) (d : Disk) :
    (UserContextLinuxDisk.read cfg block off data.length
      (UserContextLinuxDisk.prog cfg block off data d).2).1 = data := by
  unfold UserContextLinuxDisk.read UserContextLinuxDisk.prog osRead
  exact osWrite_readback (osLseek d (block * cfg.block_size + off)) data

/-- Windows-disk read-after-write at matching parameters, for any device
contents. -/
theorem winDisk_prog_read (cfg : LFSConfig) (block off : Nat)
    (data : List Nat) (d : Disk) :
    (UserContextWinDisk.read cfg block off data.length
      (UserContextWinDisk.prog cfg block off data d).2).1 = data := by
  have h := osWrite_readback (osLseek d (block * cfg.block_size + off)) data
  simp only [UserContextWinDisk.read, UserContextWinDisk.prog, osRead, osLseek] at h ⊢
  rw [h]
  simp

/-!
## Claim theorems
-/

/-- **C1**: for every backend variant, with in-bounds parameters
(`len(data) = size`, `off + size ≤ block_size`, `block < block_count`) and
a medium of the declared `block_size * block_count` bytes, `read`
immediately after `prog` with the same `(block, off, size)` returns
exactly the programmed bytes (read-after-write consistency). -/
theorem prog_read_roundtrip (cfg : LFSConfig) (block off size : Nat)
    (data buf : List Nat) (dL dW : Disk)
    (hdata : data.length = size)
    (ho : off + size ≤ cfg.block_size)
    (hb : block < cfg.block_count)
    (hbuf : buf.length = cfg.block_size * cfg.block_count) :
    ((UserContext.mk buf).prog cfg block off data).2.read cfg block off size = data
    ∧ (UserContextLinuxDisk.read cfg block off size
        (UserContextLinuxDisk.prog cfg block off data dL).2).1 = data
    ∧ (UserContextWinDisk.read cfg block off size
        (UserContextWinDisk.prog cfg block off data dW).2).1 = data := by
  subst hdata
  refine ⟨?_, linuxDisk_prog_read cfg block off data dL,
    winDisk_prog_read cfg block off data dW⟩
  apply userContext_prog_read
  rw [hbuf]
  exact mul_block_bound cfg block off data.length hb ho

/-- Witness for `prog_read_roundtrip`: `cfg0`, block 1, offset 1,
data `[7, 8]`. -/
theorem prog_read_roundtrip_witness :
    ([7, 8] : List Nat).length = 2
    ∧ 1 + 2 ≤ cfg0.block_size
    ∧ 1 < cfg0.block_count
    ∧ buf0.length = cfg0.block_size * cfg0.block_count
    ∧ (((UserContext.mk buf0).prog cfg0 1 1 [7, 8]).2.read cfg0 1 1 2 = [7, 8]
      ∧ (UserContextLinuxDisk.read cfg0 1 1 2
          (UserContextLinuxDisk.prog cfg0 1 1 [7, 8] disk0).2).1 = [7, 8]
      ∧ (UserContextWinDisk.read cfg0 1 1 2
          (UserContextWinDisk.prog cfg0 1 1 [7, 8] disk0).2).1 = [7, 8]) :=
  ⟨rfl, by decide, by decide, by decide,
    prog_read_roundtrip cfg0 1 1 2 [7, 8] buf0 disk0 disk0 rfl (by decide)
      (by decide) (by decide)⟩

/-- **C2**: every backend variant maps the logical position `(block, off)`
to the same absolute byte offset `block * cfg.block_size + off`: in-bounds
reads of all three variants return exactly the bytes of the medium at that
offset, in-bounds programs of all three variants rewrite the medium at
exactly that offset, and erases of all three variants rewrite the medium
starting at exactly `block * cfg.block_size`. -/
theorem address_mapping_uniform (cfg : LFSConfig) (block off size : Nat)
    (data buf : List Nat) (p q : Nat)
    (hb : block < cfg.block_count)
    (ho : off + size ≤ cfg.block_size)
    (hdata : data.length = size)
    (hbuf : buf.length = cfg.block_size * cfg.block_count) :
    (UserContext.mk buf).read cfg block off size
      = (buf.drop (block * cfg.block_size + off)).take size
    ∧ (UserContextLinuxDisk.read cfg block off size ⟨buf, p⟩).1
      = (buf.drop (block * cfg.block_size + off)).take size
    ∧ (UserContextWinDisk.read cfg block off size ⟨buf, q⟩).1
      = (buf.drop (block * cfg.block_size + off)).take size
    ∧ ((UserContext.mk buf).prog cfg block off data).2.buffer
      = buf.take (block * cfg.block_size + off)
        ++ (data ++ buf.drop (block * cfg.block_size + off + size))
    ∧ (UserContextLinuxDisk.prog cfg block off data ⟨buf, p⟩).2.data
      = buf.take (block * cfg.block_size + off)
        ++ (data ++ buf.drop (block * cfg.block_size + off + size))
    ∧ (UserContextWinDisk.prog cfg block off data ⟨buf, q⟩).2.data
      = buf.take (block * cfg.block_size + off)
        ++ (data ++ buf.drop (block * cfg.block_size + off + size))
    ∧ ((UserContext.mk buf).erase cfg block).2.buffer
      = buf.take (block * cfg.block_size)
        ++ (List.replicate cfg.block_size 0xFF
            ++ buf.drop (block * cfg.block_size + cfg.block_size))
    ∧ (UserContextLinuxDisk.erase cfg block ⟨buf, p⟩).2.data
      = buf.take (block * cfg.block_size)
        ++ (List.replicate cfg.block_size 0xFF
            ++ buf.drop (block * cfg.block_size + cfg.block_size))
    ∧ (UserContextWinDisk.erase cfg block ⟨buf, q⟩).2.data
      = buf.take (block * cfg.block_size)
        ++ (List.replicate cfg.block_size 0xFF
            ++ buf.drop (block * cfg.block_size + cfg.block_size)) := by
  subst hdata
  have hbound : block * cfg.block_size + off + data.length ≤ buf.length := by
    rw [hbuf]; exact mul_block_bound cfg block off data.length hb ho
  have hbe : block * cfg.block_size + cfg.block_size ≤ buf.length := by
    rw [hbuf]
    have h := mul_block_bound cfg block 0 cfg.block_size hb (by omega)
    omega
  refine ⟨?_, ?_, ?_, ?_, ?_, ?_, ?_, ?_, ?_⟩
  · simp [UserContext.read, pySliceGet, Nat.add_sub_cancel_left]
  · simp [UserContextLinuxDisk.read, osRead, osLseek]
  · have h1 : ((buf.drop (block * cfg.block_size + off)).take data.length).length
        = data.length := by
      simp [List.length_take, List.length_drop]; omega
    simp only [UserContextWinDisk.read, osRead, osLseek, h1]
    simp
  · simp only [UserContext.prog]
    exact pySliceSet_inBounds buf data _ _ (by omega) hbound
  · simp only [UserContextLinuxDisk.prog]
    exact osWrite_data ⟨buf, block * cfg.block_size + off⟩ data hbound
  · simp only [UserContextWinDisk.prog]
    exact osWrite_data ⟨buf, block * cfg.block_size + off⟩ data hbound
  · simp only [UserContext.erase]
    exact pySliceSet_inBounds buf _ _ _ (by omega) hbe
  · simp only [UserContextLinuxDisk.erase]
    have h := osWrite_data ⟨buf, block * cfg.block_size⟩
      (List.replicate cfg.block_size 0xFF)
      (by simp [List.length_replicate]; omega)
    simpa [osLseek, List.length_replicate] using h
  · simp only [UserContextWinDisk.erase]
    have h := osWrite_data ⟨buf, block * cfg.block_size⟩
      (List.replicate cfg.block_size 0xFF)
      (by simp [List.length_replicate]; omega)
    simpa [osLseek, List.length_replicate] using h

/-- Witness for `address_mapping_uniform`: `cfg0`, block 1, offset 1,
size 2, data `[7, 8]`, media `buf0`. -/
theorem address_mapping_uniform_witness :
    1 < cfg0.block_count
    ∧ 1 + 2 ≤ cfg0.block_size
    ∧ ([7, 8] : List Nat).length = 2
    ∧ buf0.length = cfg0.block_size * cfg0.block_count
    ∧ ((UserContext.mk buf0).read cfg0 1 1 2
        = (buf0.drop (1 * cfg0.block_size + 1)).take 2
      ∧ (UserContextLinuxDisk.read cfg0 1 1 2 ⟨buf0, 0⟩).1
        = (buf0.drop (1 * cfg0.block_size + 1)).take 2
      ∧ (UserContextWinDisk.read cfg0 1 1 2 ⟨buf0, 0⟩).1
        = (buf0.drop (1 * cfg0.block_size + 1)).take 2
      ∧ ((UserContext.mk buf0).prog cfg0 1 1 [7, 8]).2.buffer
        = buf0.take (1 * cfg0.block_size + 1)
          ++ ([7, 8] ++ buf0.drop (1 * cfg0.block_size + 1 + 2))
      ∧ (UserContextLinuxDisk.prog cfg0 1 1 [7, 8] ⟨buf0, 0⟩).2.data
        = buf0.take (1 * cfg0.block_size + 1)
          ++ ([7, 8] ++ buf0.drop (1 * cfg0.block_size + 1 + 2))
      ∧ (UserContextWinDisk.prog cfg0 1 1 [7, 8] ⟨buf0, 0⟩).2.data
        = buf0.take (1 * cfg0.block_size + 1)
          ++ ([7, 8] ++ buf0.drop (1 * cfg0.block_size + 1 + 2))
      ∧ ((UserContext.mk buf0).erase cfg0 1).2.buffer
        = buf0.take (1 * cfg0.block_size)
          ++ (List.replicate cfg0.block_size 0xFF
              ++ buf0.drop (1 * cfg0.block_size + cfg0.block_size))
      ∧ (UserContextLinuxDisk.erase cfg0 1 ⟨buf0, 0⟩).2.data
        = buf0.take (1 * cfg0.block_size)
          ++ (List.replicate cfg0.block_size 0xFF
              ++ buf0.drop (1 * cfg0.block_size + cfg0.block_size))
      ∧ (UserContextWinDisk.erase cfg0 1 ⟨buf0, 0⟩).2.data
        = buf0.take (1 * cfg0.block_size)
          ++ (List.replicate cfg0.block_size 0xFF
              ++ buf0.drop (1 * cfg0.block_size + cfg0.block_size))) :=
  ⟨by decide, by decide, rfl, by decide,
    address_mapping_uniform cfg0 1 1 2 [7, 8] buf0 0 0 (by decide) (by decide)
      rfl (by decide)⟩

/-- **C3**: for every backend variant, on a medium of the declared size,
`erase(block)` returns status 0 and a following
`read(block, 0, block_size)` returns `block_size` bytes all equal to the
erased-state value `0xFF`. -/
theorem erase_read_erased (cfg : LFSConfig) (block : Nat) (buf : List Nat)
    (dL dW : Disk)
    (hb : block < cfg.block_count)
    (hbuf : buf.length = cfg.block_size * cfg.block_count) :
    ((UserContext.mk buf).erase cfg block).1 = 0
    ∧ ((UserContext.mk buf).erase cfg block).2.read cfg block 0 cfg.block_size
        = List.replicate cfg.block_size 0xFF
    ∧ (UserContextLinuxDisk.erase cfg block dL).1 = 0
    ∧ (UserContextLinuxDisk.read cfg block 0 cfg.block_size
        (UserContextLinuxDisk.erase cfg block dL).2).1
        = List.replicate cfg.block_size 0xFF
    ∧ (UserContextWinDisk.erase cfg block dW).1 = 0
    ∧ (UserContextWinDisk.read cfg block 0 cfg.block_size
        (UserContextWinDisk.erase cfg block dW).2).1
        = List.replicate cfg.block_size 0xFF := by
  have hbe : block * cfg.block_size + cfg.block_size ≤ buf.length := by
    rw [hbuf]
    have h := mul_block_bound cfg block 0 cfg.block_size hb (by omega)
    omega
  refine ⟨rfl, ?_, rfl, ?_, rfl, ?_⟩
  · simp only [UserContext.erase, UserContext.read, pySliceGet, Nat.add_zero,
      Nat.add_sub_cancel_left]
    rw [pySliceSet_inBounds buf _ _ _ (by omega) hbe]
    exact sandwichRead _ _ _ _ _ (by simp [List.length_take]; omega)
      (List.length_replicate _ _)
  · have h := osWrite_readback (osLseek dL (block * cfg.block_size))
      (List.replicate cfg.block_size 0xFF)
    simp only [osLseek, List.length_replicate] at h
    simp only [UserContextLinuxDisk.erase, UserContextLinuxDisk.read, osRead,
      osLseek, Nat.add_zero]
    exact h
  · have h := osWrite_readback (osLseek dW (block * cfg.block_size))
      (List.replicate cfg.block_size 0xFF)
    simp only [osLseek, List.length_replicate] at h
    simp only [UserContextWinDisk.erase, UserContextWinDisk.read, osRead,
      osLseek, Nat.add_zero]
    rw [h]
    simp

/-- Witness for `erase_read_erased`: `cfg0`, block 2. -/
theorem erase_read_erased_witness :
    2 < cfg0.block_count
    ∧ buf0.length = cfg0.block_size * cfg0.block_count
    ∧ (((UserContext.mk buf0).erase cfg0 2).1 = 0
      ∧ ((UserContext.mk buf0).erase cfg0 2).2.read cfg0 2 0 cfg0.block_size
          = List.replicate cfg0.block_size 0xFF
      ∧ (UserContextLinuxDisk.erase cfg0 2 disk0).1 = 0
      ∧ (UserContextLinuxDisk.read cfg0 2 0 cfg0.block_size
          (UserContextLinuxDisk.erase cfg0 2 disk0).2).1
          = List.replicate cfg0.block_size 0xFF
      ∧ (UserContextWinDisk.erase cfg0 2 disk0).1 = 0
      ∧ (UserContextWinDisk.read cfg0 2 0 cfg0.block_size
          (UserContextWinDisk.erase cfg0 2 disk0).2).1
          = List.replicate cfg0.block_size 0xFF) :=
  ⟨by decide, by decide,
    erase_read_erased cfg0 2 buf0 disk0 disk0 (by decide) (by decide)⟩

/-- **C4**: for every backend variant, with in-bounds parameters on a
medium of the declared `block_size * block_count` bytes, `read` returns a
byte string of length exactly `size` (never silently fewer bytes).  The
Windows variant's result has length `size` even without the medium-size
assumption, because the zero-initialised transfer buffer is returned
whole. -/
theorem read_length_exact (cfg : LFSConfig) (block off size : Nat)
    (buf : List Nat) (dL dW : Disk)
    (hb : block < cfg.block_count)
    (ho : off + size ≤ cfg.block_size)
    (hbuf : buf.length = cfg.block_size * cfg.block_count)
    (hdL : dL.data.length = cfg.block_size * cfg.block_count) :
    ((UserContext.mk buf).read cfg block off size).length = size
    ∧ ((UserContextLinuxDisk.read cfg block off size dL).1).length = size
    ∧ ((UserContextWinDisk.read cfg block off size dW).1).length = size := by
  have hbound := mul_block_bound cfg block off size hb ho
  refine ⟨?_, ?_, ?_⟩
  · simp only [UserContext.read, pySliceGet, Nat.add_sub_cancel_left,
      List.length_take, List.length_drop]
    omega
  · simp only [UserContextLinuxDisk.read, osRead, osLseek, List.length_take,
      List.length_drop]
    omega
  · simp only [UserContextWinDisk.read, osRead, osLseek, List.length_append,
      List.length_take, List.length_drop, List.length_replicate]
    omega

/-- Witness for `read_length_exact`: `cfg0`, block 1, offset 1, size 2. -/
theorem read_length_exact_witness :
    1 < cfg0.block_count
    ∧ 1 + 2 ≤ cfg0.block_size
    ∧ buf0.length = cfg0.block_size * cfg0.block_count
    ∧ disk0.data.length = cfg0.block_size * cfg0.block_count
    ∧ (((UserContext.mk buf0).read cfg0 1 1 2).length = 2
      ∧ ((UserContextLinuxDisk.read cfg0 1 1 2 disk0).1).length = 2
      ∧ ((UserContextWinDisk.read cfg0 1 1 2 disk0).1).length = 2) :=
  ⟨by decide, by decide, by decide, by decide,
    read_length_exact cfg0 1 1 2 buf0 disk0 disk0 (by decide) (by decide)
      (by decide) (by decide)⟩

/-- **C8**: a freshly constructed in-memory backend (constructed, as the
binding layer does, with `buffsize = block_size * block_count`) owns a
buffer of that length in which every byte is `0xFF`, and before any
`prog` an in-bounds `read` returns `size` bytes all equal to `0xFF`. -/
theorem fresh_buffer_erased (cfg : LFSConfig) (block off size : Nat)
    (hb : block < cfg.block_count)
    (ho : off + size ≤ cfg.block_size) :
    (UserContext.init (cfg.block_size * cfg.block_count)).buffer
      = List.replicate (cfg.block_size * cfg.block_count) 0xFF
    ∧ (UserContext.init (cfg.block_size * cfg.block_count)).read cfg block off size
      = List.replicate size 0xFF := by
  refine ⟨rfl, ?_⟩
  simp only [UserContext.init, UserContext.read, pySliceGet,
    Nat.add_sub_cancel_left, List.drop_replicate, List.take_replicate]
  congr 1
  have h := mul_block_bound cfg block off size hb ho
  omega

/-- Witness for `fresh_buffer_erased`: `cfg0`, block 1, offset 1, size 2. -/
theorem fresh_buffer_erased_witness :
    1 < cfg0.block_count
    ∧ 1 + 2 ≤ cfg0.block_size
    ∧ ((UserContext.init (cfg0.block_size * cfg0.block_count)).buffer
        = List.replicate (cfg0.block_size * cfg0.block_count) 0xFF
      ∧ (UserContext.init (cfg0.block_size * cfg0.block_count)).read cfg0 1 1 2
        = List.replicate 2 0xFF) :=
  ⟨by decide, by decide, fresh_buffer_erased cfg0 1 1 2 (by decide) (by decide)⟩

/-- **C10**: on the in-memory backend, a `prog` whose absolute offset
`block * cfg.block_size + off` lies strictly beyond the end of the buffer
raises no error: it returns status 0 and appends `data` at the current end
of the buffer, growing the buffer instead of writing at the computed
offset (Python slice-assignment index clamping). -/
theorem prog_out_of_bounds_appends (cfg : LFSConfig) (block off : Nat)
    (data buf : List Nat)
    (hoob : buf.length < block * cfg.block_size + off)
    (hne : data ≠ []) :
    (UserContext.mk buf).prog cfg block off data = (0, UserContext.mk (buf ++ data))
    ∧ ((UserContext.mk buf).prog cfg block off data).2.buffer.length
        = buf.length + data.length
    ∧ buf.length < ((UserContext.mk buf).prog cfg block off data).2.buffer.length := by
  have hset : pySliceSet buf (block * cfg.block_size + off)
      (block * cfg.block_size + off + data.length) data = buf ++ data := by
    simp only [pySliceSet]
    have hs : min (block * cfg.block_size + off) buf.length = buf.length := by
      omega
    rw [hs]
    have he : min (max (block * cfg.block_size + off + data.length) buf.length)
        buf.length = buf.length := by omega
    rw [he, List.take_length, List.drop_length, List.append_nil]
  refine ⟨?_, ?_, ?_⟩
  · simp only [UserContext.prog, hset]
  · simp only [UserContext.prog, hset, List.length_append]
  · simp only [UserContext.prog, hset, List.length_append]
    have hp : 0 < data.length := List.length_pos.mpr hne
    omega

/-- Witness for `prog_out_of_bounds_appends`: `cfg0` (12-byte buffer),
block 3, offset 5 (absolute offset 17), data `[1, 2]`. -/
theorem prog_out_of_bounds_appends_witness :
    buf0.length < 3 * cfg0.block_size + 5
    ∧ ([1, 2] : List Nat) ≠ []
    ∧ ((UserContext.mk buf0).prog cfg0 3 5 [1, 2]
        = (0, UserContext.mk (buf0 ++ [1, 2]))
      ∧ ((UserContext.mk buf0).prog cfg0 3 5 [1, 2]).2.buffer.length
          = buf0.length + ([1, 2] : List Nat).length
      ∧ buf0.length < ((UserContext.mk buf0).prog cfg0 3 5 [1, 2]).2.buffer.length) :=
  ⟨by decide, by decide,
    prog_out_of_bounds_appends cfg0 3 5 [1, 2] buf0 (by decide) (by decide)⟩

/-- **C5** counterexample: a `prog` call whose medium-level write fails
does not surface the failure as a non-zero status return value from the
call — the raised `OSError` propagates and the call returns no status at
all. -/
theorem prog_failure_not_status_counterexample :
    UserContextLinuxDisk.progE true cfg0 0 0 [1] disk0
      = Except.error PyError.osError
    ∧ ¬ ∃ s d2, UserContextLinuxDisk.progE true cfg0 0 0 [1] disk0
        = Except.ok (s, d2) ∧ s ≠ 0 := by
  refine ⟨rfl, ?_⟩
  rintro ⟨s, d2, h, hs⟩
  simp [UserContextLinuxDisk.progE] at h

/-- **C5** (amended): on both raw-disk variants, a `prog`, `erase` or
`sync` call whose medium-level primitive fails surfaces the failure as a
propagated exception — exactly as a failing `read` does — and returns no
status (so no failing call returns 0); every call whose primitives
succeed returns status 0. -/
theorem io_failure_propagates (cfg : LFSConfig) (block off size : Nat)
    (data : List Nat) (d : Disk) :
    UserContextLinuxDisk.readE true cfg block off size d
      = Except.error PyError.osError
    ∧ UserContextLinuxDisk.progE true cfg block off data d
      = Except.error PyError.osError
    ∧ UserContextLinuxDisk.eraseE true cfg block d
      = Except.error PyError.osError
    ∧ UserContextLinuxDisk.syncE true cfg d = Except.error PyError.osError
    ∧ UserContextWinDisk.readE true cfg block off size d
      = Except.error PyError.osError
    ∧ UserContextWinDisk.progE true cfg block off data d
      = Except.error PyError.osError
    ∧ UserContextWinDisk.eraseE true cfg block d = Except.error PyError.osError
    ∧ UserContextWinDisk.syncE true cfg d = Except.error PyError.osError
    ∧ UserContextLinuxDisk.progE false cfg block off data d
      = Except.ok (UserContextLinuxDisk.prog cfg block off data d)
    ∧ (UserContextLinuxDisk.prog cfg block off data d).1 = 0
    ∧ UserContextLinuxDisk.eraseE false cfg block d
      = Except.ok (UserContextLinuxDisk.erase cfg block d)
    ∧ (UserContextLinuxDisk.erase cfg block d).1 = 0
    ∧ UserContextLinuxDisk.syncE false cfg d
      = Except.ok (UserContextLinuxDisk.sync cfg d)
    ∧ (UserContextLinuxDisk.sync cfg d).1 = 0
    ∧ UserContextWinDisk.progE false cfg block off data d
      = Except.ok (UserContextWinDisk.prog cfg block off data d)
    ∧ (UserContextWinDisk.prog cfg block off data d).1 = 0
    ∧ UserContextWinDisk.eraseE false cfg block d
      = Except.ok (UserContextWinDisk.erase cfg block d)
    ∧ (UserContextWinDisk.erase cfg block d).1 = 0
    ∧ UserContextWinDisk.syncE false cfg d
      = Except.ok (UserContextWinDisk.sync cfg d)
    ∧ (UserContextWinDisk.sync cfg d).1 = 0 :=
  ⟨rfl, rfl, rfl, rfl, rfl, rfl, rfl, rfl, rfl, rfl, rfl, rfl, rfl, rfl, rfl,
    rfl, rfl, rfl, rfl, rfl⟩

/-- **C6**: constructing a raw-disk backend when the required platform
facility is unavailable (`win32file` for the Windows variant, `fcntl` or
`os` for the Linux variant) raises `ImportError` at construction time,
attempts no device open (no open event), and acquires no device handle
(`self.device` stays `None`). -/
theorem init_unavailable_capability_error (openOutcome : Except PyError Int)
    (osAvail : Bool) :
    UserContextWinDisk.init false openOutcome
      = { err := some PyError.importError, device := none, events := [] }
    ∧ UserContextLinuxDisk.init false osAvail openOutcome
      = { err := some PyError.importError, device := none, events := [] }
    ∧ UserContextLinuxDisk.init true false openOutcome
      = { err := some PyError.importError, device := none, events := [] }
    ∧ countOpens (UserContextWinDisk.init false openOutcome).events = 0
    ∧ countOpens (UserContextLinuxDisk.init false osAvail openOutcome).events = 0
    ∧ countOpens (UserContextLinuxDisk.init true false openOutcome).events = 0 :=
  ⟨rfl, rfl, rfl, rfl, rfl, rfl⟩

/-- An in-bounds Python slice assignment leaves the length and every byte
outside the assigned range unchanged. -/
theorem pySliceSet_frame (b data : List Nat) (start stop : Nat)
    (h1 : start ≤ stop) (h2 : stop ≤ b.length)
    (h3 : data.length = stop - start) :
    (pySliceSet b start stop data).length = b.length
    ∧ (∀ i, i < start → (pySliceSet b start stop data)[i]? = b[i]?)
    ∧ (∀ i, stop ≤ i → (pySliceSet b start stop data)[i]? = b[i]?) := by
  rw [pySliceSet_inBounds b data start stop h1 h2]
  refine ⟨?_, ?_, ?_⟩
  · simp only [List.length_append, List.length_take, List.length_drop]
    omega
  · intro i hi
    rw [List.getElem?_append_left (by simp only [List.length_take]; omega)]
    exact List.getElem?_take_of_lt (by omega)
  · intro i hi
    rw [← List.append_assoc]
    have hpl : (b.take start ++ data).length = stop := by
      simp only [List.length_append, List.length_take]; omega
    have hle : (b.take start ++ data).length ≤ i := by rw [hpl]; exact hi
    rw [List.getElem?_append_right hle, hpl, List.getElem?_drop]
    have hidx : stop + (i - stop) = i := by omega
    rw [hidx]

/-- **C7**: on the in-memory backend with in-bounds parameters, `prog`
changes only the bytes at indices
`[block * block_size + off, block * block_size + off + len(data))`,
`erase` changes only the bytes of block `block`, both leave the buffer
length unchanged, and `sync` changes nothing and returns 0. -/
theorem inmem_frame_conditions (cfg : LFSConfig) (block off : Nat)
    (data buf : List Nat)
    (hb : block < cfg.block_count)
    (ho : off + data.length ≤ cfg.block_size)
    (hbuf : buf.length = cfg.block_size * cfg.block_count) :
    ((UserContext.mk buf).prog cfg block off data).2.buffer.length = buf.length
    ∧ (∀ i, i < block * cfg.block_size + off →
        ((UserContext.mk buf).prog cfg block off data).2.buffer[i]? = buf[i]?)
    ∧ (∀ i, block * cfg.block_size + off + data.length ≤ i →
        ((UserContext.mk buf).prog cfg block off data).2.buffer[i]? = buf[i]?)
    ∧ ((UserContext.mk buf).erase cfg block).2.buffer.length = buf.length
    ∧ (∀ i, i < block * cfg.block_size →
        ((UserContext.mk buf).erase cfg block).2.buffer[i]? = buf[i]?)
    ∧ (∀ i, block * cfg.block_size + cfg.block_size ≤ i →
        ((UserContext.mk buf).erase cfg block).2.buffer[i]? = buf[i]?)
    ∧ (UserContext.mk buf).sync cfg = (0, UserContext.mk buf) := by
  have hbound : block * cfg.block_size + off + data.length ≤ buf.length := by
    rw [hbuf]; exact mul_block_bound cfg block off data.length hb ho
  have hbe : block * cfg.block_size + cfg.block_size ≤ buf.length := by
    rw [hbuf]
    have h := mul_block_bound cfg block 0 cfg.block_size hb (by omega)
    omega
  have hp := pySliceSet_frame buf data (block * cfg.block_size + off)
    (block * cfg.block_size + off + data.length) (by omega) hbound (by omega)
  have he := pySliceSet_frame buf (List.replicate cfg.block_size 0xFF)
    (block * cfg.block_size) (block * cfg.block_size + cfg.block_size)
    (by omega) hbe (by simp only [List.length_replicate]; omega)
  simp only [UserContext.prog, UserContext.erase, UserContext.sync]
  exact ⟨hp.1, hp.2.1, hp.2.2, he.1, he.2.1, he.2.2, trivial⟩

/-- Witness for `inmem_frame_conditions`: `cfg0`, `prog` at block 1,
offset 1 with 2 bytes (range `[5, 7)`) checked at indices 2 and 9; `erase`
of block 1 (range `[4, 8)`) checked at indices 3 and 8. -/
theorem inmem_frame_conditions_witness :
    1 < cfg0.block_count
    ∧ 1 + ([7, 8] : List Nat).length ≤ cfg0.block_size
    ∧ buf0.length = cfg0.block_size * cfg0.block_count
    ∧ ((UserContext.mk buf0).prog cfg0 1 1 [7, 8]).2.buffer.length = buf0.length
    ∧ ((UserContext.mk buf0).prog cfg0 1 1 [7, 8]).2.buffer[2]? = buf0[2]?
    ∧ ((UserContext.mk buf0).prog cfg0 1 1 [7, 8]).2.buffer[9]? = buf0[9]?
    ∧ ((UserContext.mk buf0).erase cfg0 1).2.buffer.length = buf0.length
    ∧ ((UserContext.mk buf0).erase cfg0 1).2.buffer[3]? = buf0[3]?
    ∧ ((UserContext.mk buf0).erase cfg0 1).2.buffer[8]? = buf0[8]?
    ∧ (UserContext.mk buf0).sync cfg0 = (0, UserContext.mk buf0) := by
  have h := inmem_frame_conditions cfg0 1 1 [7, 8] buf0 (by decide) (by decide)
    (by decide)
  exact ⟨by decide, by decide, by decide, h.1, h.2.1 2 (by decide),
    h.2.2.1 9 (by decide), h.2.2.2.1, h.2.2.2.2.1 3 (by decide),
    h.2.2.2.2.2.1 8 (by decide), h.2.2.2.2.2.2⟩

/-- **C9**: over a full raw-disk backend lifetime — construction, any
sequence of issued operations, destruction — the device handle is opened
at most once (only during construction) and released exactly once when
construction acquired a handle, zero times otherwise: destruction is a
no-op when no handle was opened, and no double release occurs.  The
`okHandleValid` hypothesis records the real platform contract that
`os.open` / `win32file.CreateFile` raise on failure instead of returning
the invalid-handle sentinel. -/
theorem handle_lifecycle_once (fcntlAvail osAvail win32Avail : Bool)
    (ooL ooW : Except PyError Int) (opsL opsW : List DiskOp)
    (hW : okHandleValid ooW = true) :
    countOpens (UserContextLinuxDisk.lifecycleEvents fcntlAvail osAvail ooL opsL) ≤ 1
    ∧ countCloses (UserContextLinuxDisk.lifecycleEvents fcntlAvail osAvail ooL opsL)
        = (if (UserContextLinuxDisk.init fcntlAvail osAvail ooL).device.isSome
            then 1 else 0)
    ∧ ((UserContextLinuxDisk.init fcntlAvail osAvail ooL).err.isSome
        && (UserContextLinuxDisk.init fcntlAvail osAvail ooL).device.isSome) = false
    ∧ countOpens (UserContextWinDisk.lifecycleEvents win32Avail ooW opsW) ≤ 1
    ∧ countCloses (UserContextWinDisk.lifecycleEvents win32Avail ooW opsW)
        = (if (UserContextWinDisk.init win32Avail ooW).device.isSome then 1 else 0)
    ∧ ((UserContextWinDisk.init win32Avail ooW).err.isSome
        && (UserContextWinDisk.init win32Avail ooW).device.isSome) = false := by
  have hLin : countOpens
        (UserContextLinuxDisk.lifecycleEvents fcntlAvail osAvail ooL opsL) ≤ 1
      ∧ countCloses (UserContextLinuxDisk.lifecycleEvents fcntlAvail osAvail ooL opsL)
          = (if (UserContextLinuxDisk.init fcntlAvail osAvail ooL).device.isSome
              then 1 else 0)
      ∧ ((UserContextLinuxDisk.init fcntlAvail osAvail ooL).err.isSome
          && (UserContextLinuxDisk.init fcntlAvail osAvail ooL).device.isSome)
          = false := by
    cases fcntlAvail <;> cases osAvail <;> rcases ooL with e | fd <;>
      simp [UserContextLinuxDisk.lifecycleEvents, UserContextLinuxDisk.init,
        UserContextLinuxDisk.del, countOpens_append, countCloses_append,
        countOpens_linOps, countCloses_linOps, countOpens, countCloses]
  have hWin : countOpens (UserContextWinDisk.lifecycleEvents win32Avail ooW opsW) ≤ 1
      ∧ countCloses (UserContextWinDisk.lifecycleEvents win32Avail ooW opsW)
          = (if (UserContextWinDisk.init win32Avail ooW).device.isSome
              then 1 else 0)
      ∧ ((UserContextWinDisk.init win32Avail ooW).err.isSome
          && (UserContextWinDisk.init win32Avail ooW).device.isSome) = false := by
    rcases ooW with e | h
    · cases win32Avail <;>
        simp [UserContextWinDisk.lifecycleEvents, UserContextWinDisk.init,
          UserContextWinDisk.del, countOpens_append, countCloses_append,
          countOpens_winOps, countCloses_winOps, countOpens, countCloses]
    · simp only [okHandleValid, bne_iff_ne, ne_eq] at hW
      cases win32Avail <;>
        simp [UserContextWinDisk.lifecycleEvents, UserContextWinDisk.init,
          UserContextWinDisk.del, countOpens_append, countCloses_append,
          countOpens_winOps, countCloses_winOps, countOpens, countCloses, hW]
  exact ⟨hLin.1, hLin.2.1, hLin.2.2, hWin.1, hWin.2.1, hWin.2.2⟩

/-- Witness for `handle_lifecycle_once`: both facilities available,
successful opens (descriptor 3, handle 4), one issued operation on the
Linux backend and two on the Windows backend. -/
theorem handle_lifecycle_once_witness :
    okHandleValid (Except.ok 4) = true
    ∧ (countOpens (UserContextLinuxDisk.lifecycleEvents true true (Except.ok 3)
          [DiskOp.readOp 0 0 1]) ≤ 1
      ∧ countCloses (UserContextLinuxDisk.lifecycleEvents true true (Except.ok 3)
          [DiskOp.readOp 0 0 1])
          = (if (UserContextLinuxDisk.init true true (Except.ok 3)).device.isSome
              then 1 else 0)
      ∧ ((UserContextLinuxDisk.init true true (Except.ok 3)).err.isSome
          && (UserContextLinuxDisk.init true true (Except.ok 3)).device.isSome)
          = false
      ∧ countOpens (UserContextWinDisk.lifecycleEvents true (Except.ok 4)
          [DiskOp.eraseOp 0, DiskOp.syncOp]) ≤ 1
      ∧ countCloses (UserContextWinDisk.lifecycleEvents true (Except.ok 4)
          [DiskOp.eraseOp 0, DiskOp.syncOp])
          = (if (UserContextWinDisk.init true (Except.ok 4)).device.isSome
              then 1 else 0)
      ∧ ((UserContextWinDisk.init true (Except.ok 4)).err.isSome
          && (UserContextWinDisk.init true (Except.ok 4)).device.isSome) = false) :=
  ⟨by decide, handle_lifecycle_once true true true (Except.ok 3) (Except.ok 4)
    [DiskOp.readOp 0 0 1] [DiskOp.eraseOp 0, DiskOp.syncOp] (by decide)⟩
